import Mathlib

/- Verification model of the wavefrontHQ/aws-cloudwatch collector
   (src/command-aws-metrics.py and src/command.py).

   Modelling conventions:
   - Python strings are Lean `String`s; `str.lower()` and `str.replace('/', '.')`
     are modelled character-wise over ASCII (the keys and names the program
     handles are ASCII).
   - Python dicts are modelled as insertion-ordered association lists; key
     assignment (`d[k] = v`) replaces the value of an existing key in place or
     appends a new binding at the end.
   - `datetime` instants are modelled as integer seconds since the Unix epoch
     (the stored watermark is whole seconds by construction and the claims do
     not depend on sub-second behaviour); `command.unix_time_millis` is then
     multiplication by 1000, and Python 2 long division `//`-style `/` is
     `Int.ediv` (floor division, the divisor 1000 being positive).
   - CloudWatch statistic values (floats) are modelled as rationals; the claims
     only exercise whole-valued statistics, where Python's default float
     formatting prints `<int>.0`.
   - Python exceptions (KeyError from a missing dict key, IndexError from an
     out-of-range list index) are modelled with `Except PyErr`.
   - `re.match(pattern, key, re.IGNORECASE)` anchors at the start of the key
     and need not consume it entirely.  The regex engine below covers the
     construct subset used by the configuration patterns of the repository's
     documentation and spec: literal characters, backslash escapes, `.`, and a
     postfix `*` on a single-character atom.  Matching is case-insensitive. -/

namespace AwsCloudwatch

/-- Model of Python `str.lower` on one ASCII character. -/
def lowerChar (c : Char) : Char :=
  if 65 ≤ c.toNat ∧ c.toNat ≤ 90 then Char.ofNat (c.toNat + 32) else c

/-- Model of Python `str.lower` (ASCII). -/
def lowerStr (s : String) : String := String.mk (s.toList.map lowerChar)

/-- Model of Python `str.replace('/', '.')` (single-character replacement). -/
def replDot (s : String) : String :=
  String.mk (s.toList.map (fun c => if c = '/' then '.' else c))

/-- Regex token: a literal character or `.` (any character except newline). -/
inductive RTok
  | lit (c : Char)
  | any
deriving DecidableEq

/-- Regex item: a single token or a starred token. -/
inductive RItem
  | one (t : RTok)
  | star (t : RTok)
deriving DecidableEq

/-- Parse a pattern string into regex items: `\c` escapes `c`, `.` matches any
character, a postfix `*` stars the preceding single-character atom. -/
def parseRegex : List Char → List RItem
  | [] => []
  | '\\' :: c :: '*' :: rest => .star (.lit c) :: parseRegex rest
  | '\\' :: c :: rest => .one (.lit c) :: parseRegex rest
  | '.' :: '*' :: rest => .star .any :: parseRegex rest
  | '.' :: rest => .one .any :: parseRegex rest
  | c :: '*' :: rest => .star (.lit c) :: parseRegex rest
  | c :: rest => .one (.lit c) :: parseRegex rest

/-- Case-insensitive token match (re.IGNORECASE); `.` excludes newline. -/
def tokMatch : RTok → Char → Bool
  | .lit c, ch => lowerChar c = lowerChar ch
  | .any, ch => ch ≠ '\n'

/-- Fuel-indexed anchored regex matcher.  Each step either shortens the
pattern or consumes one input character, so `pattern length + input length + 1`
fuel always suffices (see `re_match`). -/
def reMatchF : Nat → List RItem → List Char → Bool
  | 0, _, _ => false
  | _ + 1, [], _ => true
  | fuel + 1, .one t :: ps, s =>
    match s with
    | [] => false
    | c :: cs => tokMatch t c && reMatchF fuel ps cs
  | fuel + 1, .star t :: ps, s =>
    reMatchF fuel ps s ||
      (match s with
       | [] => false
       | c :: cs => tokMatch t c && reMatchF fuel (.star t :: ps) cs)

/-- Model of `re.match(pattern, m, re.IGNORECASE) is not None`: anchored at the
start of `m`, not required to consume all of `m`. -/
def re_match (pattern m : String) : Bool :=
  reMatchF (pattern.toList.length + m.toList.length + 1) (parseRegex pattern.toList) m.toList

/-- Python exception kinds raised by the modelled code. -/
inductive PyErr
  | keyError
  | indexError
deriving DecidableEq

instance {ε α : Type} [DecidableEq ε] [DecidableEq α] : DecidableEq (Except ε α)
  | .error a, .error b =>
    if h : a = b then isTrue (by simp [h]) else isFalse (by simp [h])
  | .error _, .ok _ => isFalse (by simp)
  | .ok _, .error _ => isFalse (by simp)
  | .ok a, .ok b =>
    if h : a = b then isTrue (by simp [h]) else isFalse (by simp [h])

/-- CloudWatch statistic kinds (the valid `stats` entries). -/
inductive Stat
  | Average
  | Minimum
  | Maximum
  | Sum
  | SampleCount
deriving DecidableEq

/-- The `stat_short_name` table of src/command-aws-metrics.py (lines 66-72). -/
def stat_short_name : Stat → String
  | .Average => "avg"
  | .Minimum => "min"
  | .Maximum => "max"
  | .Sum => "sum"
  | .SampleCount => "count"

/-- One entry of a metric's `Dimensions` array. -/
structure Dimension where
  Name : String
  Value : String
deriving DecidableEq

/-- One metric descriptor as returned by ListMetrics(). -/
structure Metric where
  Namespace : String
  MetricName : String
  Dimensions : List Dimension
deriving DecidableEq

/-- One datapoint as returned by GetMetricStatistics(): its `Timestamp` key
(seconds since epoch) and its per-statistic values. -/
structure Datapoint where
  Timestamp : Int
  values : List (Stat × ℚ)
deriving DecidableEq

/-- One `source_names` entry: a Dimensions index (a Python number) or a string
(a `=`-prefixed literal, else a point-tag name). -/
inductive SourceName
  | num (n : Nat)
  | str (s : String)
deriving DecidableEq

/-- A value returned by `_get_source`: a string, or (from the numeric branch
`return dimensions[n]`) a whole dimension entry. -/
inductive SourceVal
  | strVal (s : String)
  | dimVal (d : Dimension)
deriving DecidableEq

/-- One rule of the `metrics` configuration dictionary.  `pattern` is the
dictionary key (a regex); `priority` and `source_names` are optional keys of
the rule object. -/
structure MatchRule where
  pattern : String
  stats : List Stat
  priority : Option Int
  source_names : Option (List SourceName)
deriving DecidableEq

/-- The argument tuple of one `transmit_metric` call (name, value, timestamp,
source, point tags): the unit emitted to the proxy. -/
structure OutputRecord where
  name : String
  value : ℚ
  ts : Int
  source : String
  point_tags : List (String × String)
deriving DecidableEq

/-- A value of the stored JSON configuration document. -/
inductive ConfigVal
  | num (i : Int)
  | str (s : String)
  | rules (rs : List MatchRule)
deriving DecidableEq

/-- Python dict lookup (`k in d` / `d[k]`) on an association list. -/
def alookup {κ α : Type} [DecidableEq κ] : List (κ × α) → κ → Option α
  | [], _ => none
  | (k0, v) :: rest, k => if k0 = k then some v else alookup rest k

/-- Python dict assignment `d[k] = v`: replace an existing binding in place,
else append a new one. -/
def setKey {κ α : Type} [DecidableEq κ] : List (κ × α) → κ → α → List (κ × α)
  | [], k, v => [(k, v)]
  | (k0, v0) :: rest, k, v =>
    if k0 = k then (k, v) :: rest else (k0, v0) :: setKey rest k v

/-- The `default_source_names` list of src/command-aws-metrics.py (line 62). -/
def default_source_names : List SourceName :=
  [.str "Service", .str "AvailabilityZone", .num 0, .str "Namespace", .str "=AWS"]

/-- Model of `command.unix_time_millis` (src/command.py lines 8-14):
`long((dt - epoch).total_seconds() * 1000)` with instants at whole seconds. -/
def unix_time_millis (dt : Int) : Int := (dt - 0) * 1000

/-- The composite key built by `get_configuration` (line 222):
`namespace.replace('/', '.').lower() + '.' + metric_name.lower()`. -/
def compositeKey (ns mn : String) : String :=
  lowerStr (replDot ns) ++ "." ++ lowerStr mn

/-- One iteration of the `get_configuration` loop body (lines 223-228) for the
candidate rule `c` against the current best match: replace when
`current_match is None or ('priority' in current_match and
current_match['priority'] < c['priority'])`; evaluating `c['priority']` raises
KeyError when `c` lacks the key. -/
def matchStep (m : String) (cur : Option MatchRule) (c : MatchRule) :
    Except PyErr (Option MatchRule) :=
  if re_match c.pattern m then
    match cur with
    | none => .ok (some c)
    | some cm =>
      match cm.priority with
      | none => .ok (some cm)
      | some p =>
        match c.priority with
        | none => .error .keyError
        | some q => if p < q then .ok (some c) else .ok (some cm)
  else .ok cur

/-- The `get_configuration` loop over `self.metrics_config.iteritems()` in
iteration order. -/
def matchLoop (m : String) : List MatchRule → Option MatchRule → Except PyErr (Option MatchRule)
  | [], cur => .ok cur
  | c :: rest, cur =>
    match matchStep m cur c with
    | .error e => .error e
    | .ok cur2 => matchLoop m rest cur2

/-- Model of `AwsMetricsCommand.get_configuration` (lines 213-230); the
iteration order of the rule dictionary is the list order. -/
def get_configuration (metrics_config : List MatchRule) (ns mn : String) :
    Except PyErr (Option MatchRule) :=
  matchLoop (compositeKey ns mn) metrics_config none

/-- The `for n in source_names` loop of `_get_source` (lines 242-255).  For a
numeric entry the source tests `len(dimensions) < n` and, when that holds,
evaluates `dimensions[n]`, which raises IndexError when `n` is out of range. -/
def sourceLoop (point_tags : List (String × String)) (dimensions : List Dimension) :
    List SourceName → Except PyErr (Option SourceVal)
  | [] => .ok none
  | .num n :: rest =>
    if dimensions.length < n then
      match dimensions.get? n with
      | some d => .ok (some (.dimVal d))
      | none => .error .indexError
    else sourceLoop point_tags dimensions rest
  | .str s :: rest =>
    if s.toList.take 1 = ['='] then .ok (some (.strVal (String.mk (s.toList.drop 1))))
    else
      match alookup point_tags s with
      | some v => .ok (some (.strVal v))
      | none => sourceLoop point_tags dimensions rest

/-- Model of `AwsMetricsCommand._get_source` (lines 232-255). -/
def _get_source (config : MatchRule) (point_tags : List (String × String))
    (dimensions : List Dimension) : Except PyErr (Option SourceVal) :=
  sourceLoop point_tags dimensions (config.source_names.getD default_source_names)

/-- Python truthiness of the resolved source (`if not source:`): `None` and the
empty string are falsy; a dimension dict (always non-empty) is truthy. -/
def sourceFalsy : Option SourceVal → Bool
  | none => true
  | some (.strVal s) => s.toList.isEmpty
  | some (.dimVal _) => false

/-- String passed on for a truthy source value.  The `dimVal` branch is
unreachable: the guarded index access of `sourceLoop` always faults (see
`c9_dimension_index_unreachable`). -/
def sourceRender : SourceVal → String
  | .strVal s => s
  | .dimVal d => d.Name ++ "=" ++ d.Value

/-- Python float formatting for the statistic values the claims exercise:
a whole-valued float prints as `<int>.0`. -/
def fmtFloat (v : ℚ) : String :=
  if v.den = 1 then toString v.num ++ ".0" else toString v.num ++ "/" ++ toString v.den

/-- Model of `WavefrontProxy.transmit_metric` (lines 83-97): the
newline-terminated text line sent over the socket. -/
def transmit_metric (name : String) (value : ℚ) (ts : Int) (source : String)
    (point_tags : List (String × String)) : String :=
  (point_tags.foldl (fun line kv => line ++ " " ++ kv.1 ++ "=" ++ kv.2)
    (name ++ " " ++ fmtFloat value ++ " " ++ toString ts ++ " source=" ++ source)) ++ "\n"

/-- The lines sent to the proxy for a list of emitted records, in order. -/
def sinkLines (recs : List OutputRecord) : List String :=
  recs.map (fun r => transmit_metric r.name r.value r.ts r.source r.point_tags)

/-- The point-tag suffix of an emitted line, one ` key=value` piece per tag. -/
def tagStr : List (String × String) → String
  | [] => ""
  | kv :: rest => " " ++ kv.1 ++ "=" ++ kv.2 ++ tagStr rest

/-- The inner `for s in config['stats']` loop of `_process_metrics`
(lines 292-304) for one datapoint: `stat[s]` raises KeyError when the
statistic is missing from the datapoint.  Each element of the result is the
argument tuple of one `transmit_metric` call, in call order. -/
def emit_stats (pfx metric_name : String) (number_of_stats : Nat) (flag : Bool)
    (dp : Datapoint) (source : String) (point_tags : List (String × String)) :
    List Stat → Except PyErr (List OutputRecord)
  | [] => .ok []
  | s :: ss =>
    let full_metric_name :=
      if number_of_stats = 1 ∧ flag = true then metric_name
      else metric_name ++ "." ++ stat_short_name s
    match alookup dp.values s with
    | none => .error .keyError
    | some v =>
      match emit_stats pfx metric_name number_of_stats flag dp source point_tags ss with
      | .error e => .error e
      | .ok recs =>
        .ok (⟨pfx ++ full_metric_name, v, unix_time_millis dp.Timestamp, source, point_tags⟩ :: recs)

/-- The outer `for stat in stats['Datapoints']` loop of `_process_metrics`
(lines 291-304). -/
def emit_datapoints (pfx metric_name : String) (number_of_stats : Nat) (flag : Bool)
    (source : String) (point_tags : List (String × String)) (stats : List Stat) :
    List Datapoint → Except PyErr (List OutputRecord)
  | [] => .ok []
  | dp :: dps =>
    match emit_stats pfx metric_name number_of_stats flag dp source point_tags stats with
    | .error e => .error e
    | .ok recs =>
      match emit_datapoints pfx metric_name number_of_stats flag source point_tags stats dps with
      | .error e => .error e
      | .ok more => .ok (recs ++ more)

/-- The body of the `for m in metrics` loop of `_process_metrics`
(lines 267-304) for one metric descriptor.  `get_metric_statistics` is the
upstream provider, given the descriptor, the window and the requested
statistics (the fixed Period=60 is omitted); `flag` is
`has_suffix_for_single_stat`; `pfx` is `metric_name_prefix`. -/
def process_metric (metrics_config : List MatchRule)
    (get_metric_statistics : Metric → Int → Int → List Stat → List Datapoint)
    (pfx : String) (flag : Bool) (start endt : Int) (m : Metric) :
    Except PyErr (List OutputRecord) :=
  let metric_name := replDot (lowerStr m.Namespace) ++ "." ++ lowerStr m.MetricName
  let point_tags :=
    m.Dimensions.foldl (fun pt d => setKey pt d.Name d.Value) [("Namespace", m.Namespace)]
  match get_configuration metrics_config m.Namespace m.MetricName with
  | .error e => .error e
  | .ok none => .ok []
  | .ok (some config) =>
    if config.stats.length = 0 then .ok []
    else
      let dps := get_metric_statistics m start endt config.stats
      match _get_source config point_tags m.Dimensions with
      | .error e => .error e
      | .ok src =>
        if sourceFalsy src then .ok []
        else
          match src with
          | none => .ok []
          | some sv =>
            emit_datapoints pfx metric_name config.stats.length flag
              (sourceRender sv) point_tags config.stats dps

/-- Model of `AwsMetricsCommand._process_metrics` (lines 257-304) over one page
of descriptors.  Records emitted before an exception are not collected (no
claim depends on them). -/
def process_metrics (metrics_config : List MatchRule)
    (get_metric_statistics : Metric → Int → Int → List Stat → List Datapoint)
    (pfx : String) (flag : Bool) (start endt : Int) :
    List Metric → Except PyErr (List OutputRecord)
  | [] => .ok []
  | m :: ms =>
    match process_metric metrics_config get_metric_statistics pfx flag start endt m with
    | .error e => .error e
    | .ok recs =>
      match process_metrics metrics_config get_metric_statistics pfx flag start endt ms with
      | .error e => .error e
      | .ok more => .ok (recs ++ more)

/-- The start/end computation of `_execute` (lines 330-337).  `now` is the
current UTC instant; `last_run_timestamp` is `None` when the configuration has
no such key; Python truthiness makes a stored value of 0 take the no-watermark
branch. -/
def computeWindow (now : Int) (last_run_timestamp : Option Int)
    (default_delay_minutes : Int) : Int × Int :=
  match last_run_timestamp with
  | some t =>
    if t ≠ 0 then
      (if now - t > 86400 then now - 86400 else t, now)
    else (now - default_delay_minutes * 60, now)
  | none => (now - default_delay_minutes * 60, now)

/-- Model of `AwsMetricsCommand.update_last_runtime` (lines 147-158): re-read
the stored document, set `last_run_timestamp` to
`unix_time_millis(end) / 1000` (Python 2 long floor division), write it back. -/
def update_last_runtime (config : List (String × ConfigVal)) (endt : Int) :
    List (String × ConfigVal) :=
  setKey config "last_run_timestamp" (.num (unix_time_millis endt / 1000))

/-- Observable events of one run: a page fully processed, or the watermark
written back to the store. -/
inductive RunEv
  | pageProcessed (page : List Metric)
  | wroteWatermark (stored : List (String × ConfigVal))
deriving DecidableEq

/-- The pagination loop of `_execute` (lines 339-349): successive
`list_metrics` results (an `.error` entry is a listing failure), each page fed
to the page processor (whose failure also aborts).  Returns the pages
processed, in order, and the exception that ended the loop, if any. -/
def pagesTrace (proc : List Metric → Except PyErr (List OutputRecord)) :
    List (Except PyErr (List Metric)) → List RunEv × Option PyErr
  | [] => ([], none)
  | .error e :: _ => ([], some e)
  | .ok page :: rest =>
    match proc page with
    | .error e => ([], some e)
    | .ok _ =>
      match pagesTrace proc rest with
      | (tr, res) => (RunEv.pageProcessed page :: tr, res)

/-- Model of the tail of `_execute` (lines 339-351): run the pagination loop
and, only when it finished without exception, write the watermark once via
`update_last_runtime(end)`.  Returns the event trace and the persisted store
after the run. -/
def execute_cycle (proc : List Metric → Except PyErr (List OutputRecord))
    (fetches : List (Except PyErr (List Metric)))
    (stored : List (String × ConfigVal)) (endt : Int) :
    List RunEv × List (String × ConfigVal) :=
  match pagesTrace proc fetches with
  | (tr, none) =>
    (tr ++ [RunEv.wroteWatermark (update_last_runtime stored endt)],
     update_last_runtime stored endt)
  | (tr, some _) => (tr, stored)

/-- Predicate: this `source_names` entry is skipped by the `_get_source` loop
(the loop moves on to the next entry). -/
def dirSkips (point_tags : List (String × String)) (dimensions : List Dimension) :
    SourceName → Prop
  | .num n => ¬ dimensions.length < n
  | .str s => ¬ s.toList.take 1 = ['='] ∧ alookup point_tags s = none

/-- Predicate: this `source_names` entry produces the given value in the
`_get_source` loop.  A numeric entry never produces a value (see
`c9_dimension_index_unreachable`). -/
def dirYields (point_tags : List (String × String)) : SourceName → SourceVal → Prop
  | .num _, _ => False
  | .str s, v =>
    (s.toList.take 1 = ['='] ∧ v = .strVal (String.mk (s.toList.drop 1))) ∨
    (¬ s.toList.take 1 = ['='] ∧ ∃ t, alookup point_tags s = some t ∧ v = .strVal t)

/- Concrete scenario constants used by witnesses and counterexamples. -/

/-- Spec example rule without a priority (C1). -/
def c1_r1 : MatchRule := ⟨"aws\\.ec2\\..*", [Stat.Average], none, none⟩

/-- Spec example rule with priority 5 (C1). -/
def c1_r2 : MatchRule := ⟨"aws\\.ec2\\.cpu.*", [Stat.Average], some 5, none⟩

/-- A trivial page processor (C2 witness). -/
def c2_proc : List Metric → Except PyErr (List OutputRecord) := fun _ => .ok []

/-- A stored configuration document with only a `metrics` section. -/
def c2_stored : List (String × ConfigVal) := [("metrics", ConfigVal.rules [])]

/-- A rule whose `source_names` tries the `Service` tag, then a literal (C4). -/
def c4_cex_rule : MatchRule :=
  ⟨"x", [Stat.Average], none, some [SourceName.str "Service", SourceName.str "=AWS"]⟩

/-- The claim's directive list `[TagName "Service", DimensionIndex 0, Literal "AWS"]` (C4). -/
def c4_rule : MatchRule :=
  ⟨"x", [Stat.Average], none,
   some [SourceName.str "Service", SourceName.num 0, SourceName.str "=AWS"]⟩

/-- A datapoint carrying Average and Maximum values (C5 witness). -/
def c5_dp : Datapoint := ⟨60, [(Stat.Average, 1), (Stat.Maximum, 2)]⟩

/-- A one-dimension-free descriptor in namespace `A` (C6). -/
def c6_metric : Metric := ⟨"A", "B", []⟩

/-- A rule matching `a.b` with one statistic and a literal source (C6). -/
def c6_rule : MatchRule := ⟨"a\\.b", [Stat.Average], none, some [SourceName.str "=S"]⟩

/-- A datapoint at t = 1 second after the epoch (C6). -/
def c6_dp : Datapoint := ⟨1, [(Stat.Average, 42)]⟩

/-- A statistics provider returning that one datapoint (C6). -/
def c6_gms : Metric → Int → Int → List Stat → List Datapoint := fun _ _ _ _ => [c6_dp]

/-- The record emitted in the C6 scenario. -/
def c6_rec : OutputRecord := ⟨"a.b", 42, 1000, "S", [("Namespace", "A")]⟩

/-- The claim's descriptor (C8). -/
def c8_metric : Metric := ⟨"AWS/EC2", "CPUUtilization", [⟨"InstanceId", "i-1"⟩]⟩

/-- The claim's rule (C8). -/
def c8_rule : MatchRule := ⟨"aws\\.ec2\\..*", [Stat.Average], some 1, none⟩

/-- The claim's datapoint at t = 1500 with Average 42.0 (C8). -/
def c8_dp : Datapoint := ⟨1500, [(Stat.Average, 42)]⟩

/-- A statistics provider returning that one datapoint (C8). -/
def c8_gms : Metric → Int → Int → List Stat → List Datapoint := fun _ _ _ _ => [c8_dp]

/-- The record the code actually emits in the C8 scenario. -/
def c8_expected : OutputRecord :=
  ⟨"aws.ec2.cpuutilization", 42, unix_time_millis 1500, "AWS/EC2",
   [("Namespace", "AWS/EC2"), ("InstanceId", "i-1")]⟩

/-- A rule selected first with a priority (C10). -/
def c10_r1 : MatchRule := ⟨"a.*", [Stat.Average], some 1, none⟩

/-- A later matching rule without a priority (C10). -/
def c10_r2 : MatchRule := ⟨"ab.*", [Stat.Average], none, none⟩

/-- Whitespace-separated fields of an emitted line (splitter used to state the
C6 counterexample). -/
def splitSp (acc : List Char) : List Char → List (List Char)
  | [] => [acc.reverse]
  | c :: cs => if c = ' ' then acc.reverse :: splitSp [] cs else splitSp (c :: acc) cs

/-- The fields of one emitted line. -/
def lineFields (l : String) : List String := (splitSp [] l.toList).map String.mk

/- Helper lemmas. -/

/-- A current best match without a `priority` key survives the rest of the
rule iteration unchanged: the replacement condition short-circuits at
`'priority' in current_match`, so `c['priority']` is never evaluated. -/
theorem matchLoop_nopriority (m : String) (rules : List MatchRule) (cm : MatchRule)
    (h : cm.priority = none) : matchLoop m rules (some cm) = .ok (some cm) := by
  induction rules with
  | nil => rfl
  | cons c rest ih =>
    have hstep : matchStep m (some cm) c = .ok (some cm) := by
      rw [matchStep]
      split
      · rw [h]
      · rfl
    rw [matchLoop, hstep]
    exact ih

/-- When the first matching rule (in iteration order) has no `priority` key,
the loop returns exactly that rule. -/
theorem matchLoop_first_nopriority (m : String) :
    ∀ (rules : List MatchRule) (r : MatchRule),
      List.find? (fun c => re_match c.pattern m) rules = some r →
      r.priority = none →
      matchLoop m rules none = .ok (some r) := by
  intro rules
  induction rules with
  | nil => intro r hf _; simp at hf
  | cons c rest ih =>
    intro r hf hp
    by_cases hm : re_match c.pattern m = true
    · rw [List.find?_cons_of_pos rest hm] at hf
      obtain rfl : c = r := by simpa using hf
      have hstep : matchStep m none c = .ok (some c) := by
        rw [matchStep, if_pos hm]
      rw [matchLoop, hstep]
      exact matchLoop_nopriority m rest c hp
    · rw [List.find?_cons_of_neg rest hm] at hf
      have hstep : matchStep m none c = .ok none := by
        rw [matchStep, if_neg hm]
      rw [matchLoop, hstep]
      exact ih r hf hp

/-- Characterization of one loop step: the current best match changes only to
a matching rule, and (apart from the initial selection) only when the current
best match has a priority strictly below the candidate's. -/
theorem matchStep_replace (m : String) (cur : Option MatchRule) (c : MatchRule)
    (cur2 : Option MatchRule) (hs : matchStep m cur c = .ok cur2) (hne : cur2 ≠ cur) :
    re_match c.pattern m = true ∧ cur2 = some c ∧
      (cur = none ∨ ∃ cm p q, cur = some cm ∧ cm.priority = some p ∧
        c.priority = some q ∧ p < q) := by
  rw [matchStep.eq_def] at hs
  by_cases hm : re_match c.pattern m = true
  · rw [if_pos hm] at hs
    refine ⟨hm, ?_⟩
    cases cur with
    | none =>
      cases hs
      exact ⟨rfl, Or.inl rfl⟩
    | some cm =>
      dsimp only at hs
      cases hpr : cm.priority with
      | none =>
        rw [hpr] at hs
        cases hs
        exact absurd rfl hne
      | some p =>
        rw [hpr] at hs
        dsimp only at hs
        cases hc : c.priority with
        | none => rw [hc] at hs; cases hs
        | some q =>
          rw [hc] at hs
          dsimp only at hs
          by_cases hlt : p < q
          · rw [if_pos hlt] at hs
            cases hs
            exact ⟨rfl, Or.inr ⟨cm, p, q, rfl, hpr, rfl, hlt⟩⟩
          · rw [if_neg hlt] at hs
            cases hs
            exact absurd rfl hne
  · rw [if_neg hm] at hs
    cases hs
    exact absurd rfl hne

/-- C1: for every rule set and namespace/metric key, `get_configuration`
selects the first rule (in iteration order) whose regex matches at the start
of the lowercased composite key; a later matching rule replaces the current
best match only if the current best match declares a `priority` and the later
rule's priority is numerically greater; in particular a matching rule without
a `priority`, once selected, is never replaced by any later rule. -/
theorem c1_rule_selection_policy (ns mn : String) :
    (∀ (rules : List MatchRule) (r : MatchRule),
        List.find? (fun c => re_match c.pattern (compositeKey ns mn)) rules = some r →
        r.priority = none → get_configuration rules ns mn = Except.ok (some r)) ∧
    (∀ (rules : List MatchRule) (cm : MatchRule), cm.priority = none →
        matchLoop (compositeKey ns mn) rules (some cm) = Except.ok (some cm)) ∧
    (∀ (cur : Option MatchRule) (c : MatchRule) (cur2 : Option MatchRule),
        matchStep (compositeKey ns mn) cur c = Except.ok cur2 → cur2 ≠ cur →
        re_match c.pattern (compositeKey ns mn) = true ∧ cur2 = some c ∧
          (cur = none ∨ ∃ cm p q, cur = some cm ∧ cm.priority = some p ∧
            c.priority = some q ∧ p < q)) :=
  ⟨fun rules r hf hp => matchLoop_first_nopriority _ rules r hf hp,
   fun rules cm h => matchLoop_nopriority _ rules cm h,
   fun cur c cur2 hs hne => matchStep_replace _ cur c cur2 hs hne⟩

/-- C1 witness: on the spec's example rules, the first-encountered
priority-less rule is selected and kept, despite the later rule's priority. -/
theorem c1_rule_selection_policy_witness :
    get_configuration [c1_r1, c1_r2] "AWS/EC2" "CPUUtilization" = Except.ok (some c1_r1) :=
  (c1_rule_selection_policy "AWS/EC2" "CPUUtilization").1 [c1_r1, c1_r2] c1_r1
    (by decide) rfl

/-- C10: `get_configuration` raises an unhandled KeyError when the current
best match declares a `priority` and a later matching rule lacks one: the
replacement condition evaluates the missing `c['priority']`. -/
theorem c10_priority_keyerror :
    get_configuration [c10_r1, c10_r2] "ab" "c" = Except.error PyErr.keyError ∧
    re_match c10_r1.pattern (compositeKey "ab" "c") = true ∧
    re_match c10_r2.pattern (compositeKey "ab" "c") = true ∧
    c10_r1.priority = some 1 ∧ c10_r2.priority = none :=
  ⟨by decide, by decide, by decide, rfl, rfl⟩

/-- C3 counterexample: a persisted watermark of 0 is treated as absent by
Python truthiness, so the window start uses the default delay instead of the
24-hour clamp the claim prescribes for `now - watermark > 24h`. -/
theorem c3_zero_watermark_counterexample :
    computeWindow 200000 (some 0) 5 = (199700, 200000) ∧
    (199700 : Int) ≠ 200000 - 86400 :=
  ⟨by decide, by decide⟩

/-- C3 amended: `end = now`; when no watermark is persisted or the persisted
watermark is 0 (falsy), `start = now - defaultDelayMinutes`; otherwise
`start = persistedWatermark`, clamped to `now - 24h` when `now - watermark`
exceeds 24 hours. -/
theorem c3_window_amended (now : Int) (lrt : Option Int) (delay : Int) :
    (computeWindow now lrt delay).2 = now ∧
    ((lrt = none ∨ lrt = some 0) →
       (computeWindow now lrt delay).1 = now - delay * 60) ∧
    (∀ t, lrt = some t → t ≠ 0 →
       (computeWindow now lrt delay).1 =
         if now - t > 86400 then now - 86400 else t) := by
  refine ⟨?_, ?_, ?_⟩
  · cases lrt with
    | none => rfl
    | some t =>
      by_cases ht : t ≠ 0
      · rw [computeWindow, if_pos ht]
      · rw [computeWindow, if_neg ht]
  · intro hl
    rcases hl with rfl | rfl
    · rfl
    · rfl
  · intro t hl ht
    subst hl
    rw [computeWindow, if_pos ht]

/-- C3 witness for the amended claim: a nonzero watermark 100 with
`now = 100000` is clamped to `now - 24h`. -/
theorem c3_window_amended_witness :
    (computeWindow 100000 (some 100) 5).1 = 100000 - 86400 := by
  have h := (c3_window_amended 100000 (some 100) 5).2.2 100 rfl (by decide)
  rw [if_pos (by decide)] at h
  exact h

/-- The `_get_source` loop never returns a dimension value with `.ok`: the
numeric branch either faults or is skipped, and string entries produce
strings. -/
theorem sourceLoop_ok_not_dim (pt : List (String × String)) (dims : List Dimension) :
    ∀ (names : List SourceName) (res : Option SourceVal),
      sourceLoop pt dims names = .ok res → ∀ d, res ≠ some (.dimVal d) := by
  intro names
  induction names with
  | nil =>
    intro res h d
    cases h
    simp
  | cons hd tl ih =>
    intro res h d
    cases hd with
    | num n =>
      rw [sourceLoop] at h
      by_cases hlen : dims.length < n
      · rw [if_pos hlen] at h
        have hg : dims.get? n = none := List.get?_eq_none.mpr (le_of_lt hlen)
        rw [hg] at h
        cases h
      · rw [if_neg hlen] at h
        exact ih res h d
    | str s =>
      rw [sourceLoop] at h
      by_cases heq : s.toList.take 1 = ['=']
      · rw [if_pos heq] at h
        cases h
        simp
      · rw [if_neg heq] at h
        cases hl : alookup pt s with
        | some v =>
          rw [hl] at h
          cases h
          simp
        | none =>
          rw [hl] at h
          exact ih res h d

/-- C9: for every dimension list and numeric directive `n`, the
DimensionIndex branch of `_get_source` never successfully returns a dimension
value: when the guard `len(dimensions) < n` holds the access `dimensions[n]`
is out of bounds and raises IndexError, and when it does not hold the
directive is skipped. -/
theorem c9_dimension_index_unreachable (n : Nat) (rest : List SourceName)
    (pt : List (String × String)) (dims : List Dimension) :
    (dims.length < n →
       sourceLoop pt dims (SourceName.num n :: rest) = Except.error PyErr.indexError) ∧
    (¬ dims.length < n →
       sourceLoop pt dims (SourceName.num n :: rest) = sourceLoop pt dims rest) ∧
    (∀ res d, sourceLoop pt dims (SourceName.num n :: rest) = Except.ok res →
       res ≠ some (SourceVal.dimVal d)) := by
  refine ⟨?_, ?_, ?_⟩
  · intro hlen
    rw [sourceLoop, if_pos hlen, List.get?_eq_none.mpr (le_of_lt hlen)]
  · intro hlen
    rw [sourceLoop, if_neg hlen]
  · intro res d h
    exact sourceLoop_ok_not_dim pt dims (SourceName.num n :: rest) res h d

/-- C9 witness: a numeric directive 2 with no dimensions raises IndexError. -/
theorem c9_dimension_index_unreachable_witness :
    sourceLoop [] [] [SourceName.num 2] = Except.error PyErr.indexError :=
  (c9_dimension_index_unreachable 2 [] [] []).1 (by decide)

/-- When the `_get_source` loop returns `None`, every directive was skipped. -/
theorem sourceLoop_none_skips (pt : List (String × String)) (dims : List Dimension) :
    ∀ (names : List SourceName), sourceLoop pt dims names = .ok none →
      ∀ d ∈ names, dirSkips pt dims d := by
  intro names
  induction names with
  | nil => intro _ d hd; simp at hd
  | cons hd tl ih =>
    intro h d hdm
    rcases List.mem_cons.mp hdm with rfl | hdm2
    · cases d with
      | num n =>
        rw [sourceLoop] at h
        by_cases hlen : dims.length < n
        · rw [if_pos hlen, List.get?_eq_none.mpr (le_of_lt hlen)] at h
          cases h
        · exact hlen
      | str s =>
        rw [sourceLoop] at h
        by_cases heq : s.toList.take 1 = ['=']
        · rw [if_pos heq] at h; cases h
        · rw [if_neg heq] at h
          cases hl : alookup pt s with
          | some v => rw [hl] at h; cases h
          | none => exact ⟨heq, hl⟩
    · cases hd with
      | num n =>
        rw [sourceLoop] at h
        by_cases hlen : dims.length < n
        · rw [if_pos hlen, List.get?_eq_none.mpr (le_of_lt hlen)] at h
          cases h
        · rw [if_neg hlen] at h
          exact ih h d hdm2
      | str s =>
        rw [sourceLoop] at h
        by_cases heq : s.toList.take 1 = ['=']
        · rw [if_pos heq] at h; cases h
        · rw [if_neg heq] at h
          cases hl : alookup pt s with
          | some v => rw [hl] at h; cases h
          | none => rw [hl] at h; exact ih h d hdm2

/-- When the `_get_source` loop returns a value, it is the value of the first
directive that produces one; every earlier directive was skipped. -/
theorem sourceLoop_some_first (pt : List (String × String)) (dims : List Dimension) :
    ∀ (names : List SourceName) (v : SourceVal),
      sourceLoop pt dims names = .ok (some v) →
      ∃ pre d suf, names = pre ++ d :: suf ∧ (∀ d2 ∈ pre, dirSkips pt dims d2) ∧
        dirYields pt d v := by
  intro names
  induction names with
  | nil => intro v h; cases h
  | cons hd tl ih =>
    intro v h
    cases hd with
    | num n =>
      rw [sourceLoop] at h
      by_cases hlen : dims.length < n
      · rw [if_pos hlen, List.get?_eq_none.mpr (le_of_lt hlen)] at h
        cases h
      · rw [if_neg hlen] at h
        obtain ⟨pre, d, suf, heq, hskip, hy⟩ := ih v h
        refine ⟨SourceName.num n :: pre, d, suf, by rw [heq]; rfl, ?_, hy⟩
        intro d2 hd2
        rcases List.mem_cons.mp hd2 with rfl | hd3
        · exact hlen
        · exact hskip d2 hd3
    | str s =>
      rw [sourceLoop] at h
      by_cases heq : s.toList.take 1 = ['=']
      · rw [if_pos heq] at h
        cases h
        exact ⟨[], SourceName.str s, tl, rfl, by simp, Or.inl ⟨heq, rfl⟩⟩
      · rw [if_neg heq] at h
        cases hl : alookup pt s with
        | some t =>
          rw [hl] at h
          cases h
          exact ⟨[], SourceName.str s, tl, rfl, by simp, Or.inr ⟨heq, t, hl, rfl⟩⟩
        | none =>
          rw [hl] at h
          obtain ⟨pre, d, suf, heq2, hskip, hy⟩ := ih v h
          refine ⟨SourceName.str s :: pre, d, suf, by rw [heq2]; rfl, ?_, hy⟩
          intro d2 hd2
          rcases List.mem_cons.mp hd2 with rfl | hd3
          · exact ⟨heq, hl⟩
          · exact hskip d2 hd3

/-- C4 amended: `_get_source` returns the value produced by the first
directive in order that produces a value at all — a TagName directive whose
key is absent is skipped, a TagName directive whose key is present yields the
stored value even when it is empty, a Literal always yields its string, and a
numeric directive never yields (it is skipped or faults, see C9) — and
returns none when every directive is skipped; in particular the directives
`[TagName "Service", DimensionIndex 0, Literal "AWS"]` with
`pointTags = ("Service" -> "worker")` resolve to `"worker"`. -/
theorem c4_source_resolution_amended (names : List SourceName)
    (pt : List (String × String)) (dims : List Dimension) :
    (sourceLoop pt dims names = Except.ok none → ∀ d ∈ names, dirSkips pt dims d) ∧
    (∀ v, sourceLoop pt dims names = Except.ok (some v) →
       ∃ pre d suf, names = pre ++ d :: suf ∧ (∀ d2 ∈ pre, dirSkips pt dims d2) ∧
         dirYields pt d v) ∧
    _get_source c4_rule [("Service", "worker")] [] =
      Except.ok (some (SourceVal.strVal "worker")) :=
  ⟨fun h => sourceLoop_none_skips pt dims names h,
   fun v h => sourceLoop_some_first pt dims names v h,
   by decide⟩

/-- C4 counterexample: a present point tag with an empty value is returned
as-is (the claim's "first non-empty value" selection would instead return the
later literal "AWS"). -/
theorem c4_empty_tag_counterexample :
    _get_source c4_cex_rule [("Service", "")] [] =
      Except.ok (some (SourceVal.strVal "")) ∧
    alookup [("Service", "")] "Service" = some "" ∧
    SourceVal.strVal "" ≠ SourceVal.strVal "AWS" :=
  ⟨by decide, by decide, by decide⟩

/-- C4 witness for the amended claim: on the claim's example directives the
first directive producing a value is `TagName "Service"`, yielding "worker". -/
theorem c4_source_resolution_amended_witness :
    ∃ pre d suf,
      [SourceName.str "Service", SourceName.num 0, SourceName.str "=AWS"] =
        pre ++ d :: suf ∧
      (∀ d2 ∈ pre, dirSkips [("Service", "worker")] [] d2) ∧
      dirYields [("Service", "worker")] d (SourceVal.strVal "worker") :=
  (c4_source_resolution_amended
      [SourceName.str "Service", SourceName.num 0, SourceName.str "=AWS"]
      [("Service", "worker")] []).2.1 (SourceVal.strVal "worker") (by decide)

/-- The names of the records emitted for one datapoint: one per statistic, in
the configured order, suffixed unless the single-statistic suppression
applies. -/
theorem emit_stats_names (pfx mn : String) (nos : Nat) (flag : Bool) (dp : Datapoint)
    (src : String) (pt : List (String × String)) :
    ∀ (ss : List Stat) (recs : List OutputRecord),
      emit_stats pfx mn nos flag dp src pt ss = .ok recs →
      recs.map (fun r => r.name) =
        ss.map (fun s => pfx ++ (if nos = 1 ∧ flag = true then mn
                                 else mn ++ "." ++ stat_short_name s)) := by
  intro ss
  induction ss with
  | nil => intro recs h; cases h; rfl
  | cons s tail ih =>
    intro recs h
    rw [emit_stats] at h
    cases hv : alookup dp.values s with
    | none => rw [hv] at h; cases h
    | some v =>
      rw [hv] at h
      dsimp only at h
      cases hrec : emit_stats pfx mn nos flag dp src pt tail with
      | error e => rw [hrec] at h; cases h
      | ok recs2 =>
        rw [hrec] at h
        dsimp only at h
        cases h
        simp only [List.map]
        rw [ih recs2 hrec]

/-- C5: if the rule requests exactly one statistic and suffix-suppression is
enabled (`has_suffix_for_single_stat` true), every record emitted for a
datapoint carries the prefixed base name unchanged; otherwise one record per
statistic is emitted, named base ++ "." ++ abbreviated label. -/
theorem c5_suffix_policy (pfx mn : String) (stats : List Stat) (flag : Bool)
    (dp : Datapoint) (src : String) (pt : List (String × String))
    (recs : List OutputRecord)
    (h : emit_stats pfx mn stats.length flag dp src pt stats = Except.ok recs) :
    (stats.length = 1 ∧ flag = true →
       recs.map (fun r => r.name) = stats.map (fun _ => pfx ++ mn)) ∧
    (¬ (stats.length = 1 ∧ flag = true) →
       recs.map (fun r => r.name) =
         stats.map (fun s => pfx ++ mn ++ "." ++ stat_short_name s)) := by
  have hn := emit_stats_names pfx mn stats.length flag dp src pt stats recs h
  constructor
  · intro hc
    rw [hn]
    simp [if_pos hc]
  · intro hc
    rw [hn]
    simp [if_neg hc, String.append_assoc]

/-- C5 witness: two statistics requested, so both records carry suffixes. -/
theorem c5_suffix_policy_witness :
    ([⟨"p.base.avg", 1, 60000, "s", []⟩, ⟨"p.base.max", 2, 60000, "s", []⟩] :
        List OutputRecord).map (fun r => r.name) =
      [Stat.Average, Stat.Maximum].map
        (fun s => "p." ++ "base" ++ "." ++ stat_short_name s) :=
  (c5_suffix_policy "p." "base" [Stat.Average, Stat.Maximum] true c5_dp "s" []
      [⟨"p.base.avg", 1, 60000, "s", []⟩, ⟨"p.base.max", 2, 60000, "s", []⟩]
      (by decide)).2 (by decide)

/-- Key lookup after a dict assignment: the assigned key reads back the new
value. -/
theorem alookup_setKey_self {α : Type} (l : List (String × α)) (k : String) (v : α) :
    alookup (setKey l k v) k = some v := by
  induction l with
  | nil => simp [setKey, alookup]
  | cons kv rest ih =>
    obtain ⟨k0, v0⟩ := kv
    by_cases hk : k0 = k
    · simp [setKey, hk, alookup]
    · simp [setKey, hk, alookup, ih]

/-- Key lookup after a dict assignment: every other key is unchanged. -/
theorem alookup_setKey_other {α : Type} (l : List (String × α)) (k k2 : String)
    (v : α) (h : k2 ≠ k) : alookup (setKey l k v) k2 = alookup l k2 := by
  induction l with
  | nil => simp [setKey, alookup, Ne.symm h]
  | cons kv rest ih =>
    obtain ⟨k0, v0⟩ := kv
    by_cases hk : k0 = k
    · subst hk
      simp [setKey, alookup, Ne.symm h]
    · simp [setKey, hk, alookup, ih]

/-- C7: committing the watermark rewrites the stored document so that
`last_run_timestamp` equals the poll end instant in whole seconds
(`unix_time_millis(end) / 1000`, which at the model's whole-second resolution
is `end` itself), and every other field of the stored document is unchanged. -/
theorem c7_update_last_runtime (config : List (String × ConfigVal)) (endt : Int) :
    alookup (update_last_runtime config endt) "last_run_timestamp" =
      some (ConfigVal.num endt) ∧
    ∀ k, k ≠ "last_run_timestamp" →
      alookup (update_last_runtime config endt) k = alookup config k := by
  constructor
  · rw [update_last_runtime]
    have hq : unix_time_millis endt / 1000 = endt := by
      rw [unix_time_millis]
      omega
    rw [hq, alookup_setKey_self]
  · intro k hk
    rw [update_last_runtime, alookup_setKey_other _ _ _ _ hk]

/-- C7 witness: updating a one-field document adds the watermark and keeps
the `metrics` section. -/
theorem c7_update_last_runtime_witness :
    alookup (update_last_runtime c2_stored 600) "last_run_timestamp" =
      some (ConfigVal.num 600) ∧
    alookup (update_last_runtime c2_stored 600) "metrics" = alookup c2_stored "metrics" :=
  ⟨(c7_update_last_runtime c2_stored 600).1,
   (c7_update_last_runtime c2_stored 600).2 "metrics" (by decide)⟩

/-- Every event recorded by the pagination loop itself is a processed page
(the loop never writes the watermark). -/
theorem pagesTrace_events (proc : List Metric → Except PyErr (List OutputRecord)) :
    ∀ (fetches : List (Except PyErr (List Metric))),
      ∀ e ∈ (pagesTrace proc fetches).1, ∃ p, e = RunEv.pageProcessed p := by
  intro fetches
  induction fetches with
  | nil => intro e he; simp [pagesTrace] at he
  | cons f rest ih =>
    intro e he
    cases f with
    | error err => simp [pagesTrace] at he
    | ok page =>
      rw [pagesTrace] at he
      cases hp : proc page with
      | error err => rw [hp] at he; simp at he
      | ok recs =>
        rw [hp] at he
        dsimp only at he
        rcases htr : pagesTrace proc rest with ⟨tr, res⟩
        rw [htr] at he
        dsimp only at he
        rcases List.mem_cons.mp he with rfl | hmem
        · exact ⟨page, rfl⟩
        · exact ih e (by rw [htr]; exact hmem)

/-- C2: the watermark is written exactly once per run, only after every page
of the listing was processed without error; when listing or page processing
raises anywhere in the cycle, the persisted store after the run equals its
value before the run and no watermark write occurs. -/
theorem c2_watermark_commit (proc : List Metric → Except PyErr (List OutputRecord))
    (fetches : List (Except PyErr (List Metric)))
    (stored : List (String × ConfigVal)) (endt : Int) :
    ((pagesTrace proc fetches).2 = none →
       (execute_cycle proc fetches stored endt).2 = update_last_runtime stored endt ∧
       (execute_cycle proc fetches stored endt).1 =
         (pagesTrace proc fetches).1 ++
           [RunEv.wroteWatermark (update_last_runtime stored endt)] ∧
       ∀ e ∈ (pagesTrace proc fetches).1, ∃ p, e = RunEv.pageProcessed p) ∧
    (∀ err, (pagesTrace proc fetches).2 = some err →
       (execute_cycle proc fetches stored endt).2 = stored ∧
       ∀ s, RunEv.wroteWatermark s ∉ (execute_cycle proc fetches stored endt).1) := by
  rcases htr : pagesTrace proc fetches with ⟨tr, res⟩
  constructor
  · intro hres
    dsimp only at hres
    subst hres
    rw [execute_cycle, htr]
    refine ⟨rfl, rfl, ?_⟩
    intro e he
    exact pagesTrace_events proc fetches e (by rw [htr]; simpa using he)
  · intro err hres
    dsimp only at hres
    subst hres
    rw [execute_cycle, htr]
    refine ⟨rfl, ?_⟩
    intro s hmem
    obtain ⟨p, hp⟩ :=
      pagesTrace_events proc fetches _ (by rw [htr]; simpa using hmem)
    cases hp

/-- C2 witness: a one-page run that succeeds persists the updated store. -/
theorem c2_watermark_commit_witness :
    (execute_cycle c2_proc [Except.ok []] c2_stored 600).2 =
      update_last_runtime c2_stored 600 :=
  ((c2_watermark_commit c2_proc [Except.ok []] c2_stored 600).1 (by decide)).1

/-- The point-tag fold of `transmit_metric` appends one ` key=value` piece
per tag after the initial segment. -/
theorem foldl_tagStr (pt : List (String × String)) (init : String) :
    pt.foldl (fun line kv => line ++ " " ++ kv.1 ++ "=" ++ kv.2) init =
      init ++ tagStr pt := by
  induction pt generalizing init with
  | nil => simp [tagStr]
  | cons kv rest ih =>
    simp only [List.foldl, tagStr]
    rw [ih]
    simp [String.append_assoc]

/-- Shape of one emitted line: name, formatted value, timestamp, source, then
the point tags, newline-terminated. -/
theorem transmit_metric_form (name : String) (v : ℚ) (ts : Int) (src : String)
    (pt : List (String × String)) :
    transmit_metric name v ts src pt =
      name ++ " " ++ fmtFloat v ++ " " ++ toString ts ++ " source=" ++ src ++
        tagStr pt ++ "\n" := by
  rw [transmit_metric, foldl_tagStr]

/-- Every record emitted for one datapoint carries that datapoint's timestamp
converted with `unix_time_millis`. -/
theorem emit_stats_ts (pfx mn : String) (nos : Nat) (flag : Bool) (dp : Datapoint)
    (src : String) (pt : List (String × String)) :
    ∀ (ss : List Stat) (recs : List OutputRecord),
      emit_stats pfx mn nos flag dp src pt ss = .ok recs →
      ∀ r ∈ recs, r.ts = unix_time_millis dp.Timestamp := by
  intro ss
  induction ss with
  | nil => intro recs h r hr; cases h; simp at hr
  | cons s tail ih =>
    intro recs h r hr
    rw [emit_stats] at h
    cases hv : alookup dp.values s with
    | none => rw [hv] at h; cases h
    | some v =>
      rw [hv] at h
      dsimp only at h
      cases hrec : emit_stats pfx mn nos flag dp src pt tail with
      | error e => rw [hrec] at h; cases h
      | ok recs2 =>
        rw [hrec] at h
        dsimp only at h
        cases h
        rcases List.mem_cons.mp hr with rfl | hr2
        · rfl
        · exact ih recs2 hrec r hr2

/-- Every record emitted for a list of datapoints carries the timestamp of
one of those datapoints. -/
theorem emit_datapoints_ts (pfx mn : String) (nos : Nat) (flag : Bool)
    (src : String) (pt : List (String × String)) (stats : List Stat) :
    ∀ (dps : List Datapoint) (recs : List OutputRecord),
      emit_datapoints pfx mn nos flag src pt stats dps = .ok recs →
      ∀ r ∈ recs, ∃ dp ∈ dps, r.ts = unix_time_millis dp.Timestamp := by
  intro dps
  induction dps with
  | nil => intro recs h r hr; cases h; simp at hr
  | cons dp rest ih =>
    intro recs h r hr
    rw [emit_datapoints] at h
    cases h1 : emit_stats pfx mn nos flag dp src pt stats with
    | error e => rw [h1] at h; cases h
    | ok recs1 =>
      rw [h1] at h
      dsimp only at h
      cases h2 : emit_datapoints pfx mn nos flag src pt stats rest with
      | error e => rw [h2] at h; cases h
      | ok recs2 =>
        rw [h2] at h
        dsimp only at h
        cases h
        rcases List.mem_append.mp hr with hr1 | hr2
        · exact ⟨dp, List.mem_cons_self dp rest,
            emit_stats_ts pfx mn nos flag dp src pt stats recs1 h1 r hr1⟩
        · obtain ⟨dp2, hdp2, hts⟩ := ih recs2 h2 r hr2
          exact ⟨dp2, List.mem_cons_of_mem dp hdp2, hts⟩

/-- Every record emitted for one descriptor stems from a datapoint returned
by the statistics provider for that descriptor. -/
theorem process_metric_ts (cfg : List MatchRule)
    (gms : Metric → Int → Int → List Stat → List Datapoint)
    (pfx : String) (flag : Bool) (start endt : Int) (m : Metric)
    (recs : List OutputRecord)
    (h : process_metric cfg gms pfx flag start endt m = .ok recs) :
    ∀ r ∈ recs, ∃ ss dp, dp ∈ gms m start endt ss ∧
      r.ts = unix_time_millis dp.Timestamp := by
  intro r hr
  rw [process_metric] at h
  cases hc : get_configuration cfg m.Namespace m.MetricName with
  | error e => rw [hc] at h; cases h
  | ok oconfig =>
    rw [hc] at h
    dsimp only at h
    cases oconfig with
    | none => cases h; simp at hr
    | some config =>
      dsimp only at h
      by_cases hlen : config.stats.length = 0
      · rw [if_pos hlen] at h; cases h; simp at hr
      · rw [if_neg hlen] at h
        cases hsrc : _get_source config
            (m.Dimensions.foldl (fun pt d => setKey pt d.Name d.Value)
              [("Namespace", m.Namespace)]) m.Dimensions with
        | error e => rw [hsrc] at h; cases h
        | ok src =>
          rw [hsrc] at h
          dsimp only at h
          by_cases hfal : sourceFalsy src = true
          · rw [if_pos hfal] at h; cases h; simp at hr
          · rw [if_neg hfal] at h
            cases src with
            | none => cases h; simp at hr
            | some sv =>
              dsimp only at h
              obtain ⟨dp, hdp, hts⟩ :=
                emit_datapoints_ts _ _ _ _ _ _ _ _ recs h r hr
              exact ⟨config.stats, dp, hdp, hts⟩

/-- Every record emitted by `_process_metrics` stems from a datapoint
returned for one of the page's descriptors. -/
theorem process_metrics_ts (cfg : List MatchRule)
    (gms : Metric → Int → Int → List Stat → List Datapoint)
    (pfx : String) (flag : Bool) (start endt : Int) :
    ∀ (metrics : List Metric) (recs : List OutputRecord),
      process_metrics cfg gms pfx flag start endt metrics = .ok recs →
      ∀ r ∈ recs, ∃ m ∈ metrics, ∃ ss dp, dp ∈ gms m start endt ss ∧
        r.ts = unix_time_millis dp.Timestamp := by
  intro metrics
  induction metrics with
  | nil => intro recs h r hr; cases h; simp at hr
  | cons m ms ih =>
    intro recs h r hr
    rw [process_metrics] at h
    cases h1 : process_metric cfg gms pfx flag start endt m with
    | error e => rw [h1] at h; cases h
    | ok recs1 =>
      rw [h1] at h
      dsimp only at h
      cases h2 : process_metrics cfg gms pfx flag start endt ms with
      | error e => rw [h2] at h; cases h
      | ok recs2 =>
        rw [h2] at h
        dsimp only at h
        cases h
        rcases List.mem_append.mp hr with hr1 | hr2
        · obtain ⟨ss, dp, hdp, hts⟩ :=
            process_metric_ts cfg gms pfx flag start endt m recs1 h1 r hr1
          exact ⟨m, List.mem_cons_self m ms, ss, dp, hdp, hts⟩
        · obtain ⟨m2, hm2, ss, dp, hdp, hts⟩ := ih recs2 h2 r hr2
          exact ⟨m2, List.mem_cons_of_mem m hm2, ss, dp, hdp, hts⟩

/-- C6 amended: every line emitted to the sink has the form
`<name> <value> <timestampMillis> source=<source>[ <tagKey>=<tagValue>]*\n`,
where the third field is the datapoint's timestamp converted by
`unix_time_millis`, i.e. milliseconds since the epoch (not seconds). -/
theorem c6_line_format_amended (cfg : List MatchRule)
    (gms : Metric → Int → Int → List Stat → List Datapoint)
    (pfx : String) (flag : Bool) (start endt : Int)
    (metrics : List Metric) (recs : List OutputRecord)
    (h : process_metrics cfg gms pfx flag start endt metrics = Except.ok recs) :
    ∀ line ∈ sinkLines recs,
      ∃ (nm : String) (v : ℚ) (src : String) (tags : String) (m : Metric)
        (ss : List Stat) (dp : Datapoint),
        m ∈ metrics ∧ dp ∈ gms m start endt ss ∧
        line = nm ++ " " ++ fmtFloat v ++ " " ++
          toString (unix_time_millis dp.Timestamp) ++ " source=" ++ src ++
          tags ++ "\n" := by
  intro line hl
  rw [sinkLines] at hl
  obtain ⟨r, hr, rfl⟩ := List.mem_map.mp hl
  obtain ⟨m, hm, ss, dp, hdp, hts⟩ :=
    process_metrics_ts cfg gms pfx flag start endt metrics recs h r hr
  refine ⟨r.name, r.value, r.source, tagStr r.point_tags, m, ss, dp, hm, hdp, ?_⟩
  rw [transmit_metric_form, hts]

/-- C6 counterexample: for a datapoint at t = 1 second after the epoch the
emitted line's third field is "1000" (milliseconds), not "1" (seconds). -/
theorem c6_millis_counterexample :
    process_metrics [c6_rule] c6_gms "" true 0 600 [c6_metric] = Except.ok [c6_rec] ∧
    sinkLines [c6_rec] = ["a.b 42.0 1000 source=S Namespace=A\n"] ∧
    (lineFields "a.b 42.0 1000 source=S Namespace=A\n").getD 2 "" = "1000" ∧
    c6_dp.Timestamp = 1 ∧ ("1000" : String) ≠ "1" :=
  ⟨by decide, by decide, by decide, rfl, by decide⟩

/-- C6 witness for the amended claim: the line of the concrete run has the
stated form with a millisecond third field. -/
theorem c6_line_format_amended_witness :
    ∃ (nm : String) (v : ℚ) (src : String) (tags : String) (m : Metric)
      (ss : List Stat) (dp : Datapoint),
      m ∈ [c6_metric] ∧ dp ∈ c6_gms m 0 600 ss ∧
      "a.b 42.0 1000 source=S Namespace=A\n" = nm ++ " " ++ fmtFloat v ++ " " ++
        toString (unix_time_millis dp.Timestamp) ++ " source=" ++ src ++
        tags ++ "\n" :=
  c6_line_format_amended [c6_rule] c6_gms "" true 0 600 [c6_metric] [c6_rec]
    (by decide) "a.b 42.0 1000 source=S Namespace=A\n" (by decide)

/-- C8 counterexample: on the claim's inputs the emitted record's source is
"AWS/EC2" — the `Namespace` point tag, which is always present and precedes
the `=AWS` literal in `default_source_names` — not the claimed "AWS". -/
theorem c8_source_counterexample :
    process_metrics [c8_rule] c8_gms "" true 0 300 [c8_metric] =
      Except.ok [c8_expected] ∧
    c8_expected.source = "AWS/EC2" ∧ ("AWS/EC2" : String) ≠ "AWS" :=
  ⟨by decide, by decide, by decide⟩

/-- C8 amended: the descriptor/rule/datapoint of the claim yield exactly one
record named "aws.ec2.cpuutilization" with value 42.0, timestamp
`millis(1500)`, source "AWS/EC2" (the Namespace point tag), and point tags
Namespace and InstanceId. -/
theorem c8_end_to_end_amended :
    process_metrics [c8_rule] c8_gms "" true 0 300 [c8_metric] =
      Except.ok [⟨"aws.ec2.cpuutilization", 42, unix_time_millis 1500, "AWS/EC2",
        [("Namespace", "AWS/EC2"), ("InstanceId", "i-1")]⟩] := by decide

end AwsCloudwatch
